import Mathlib

/-! Shallow embedding of the offline durability core of the Glove-monitor
application: the upload queue manager (services/uploadManager.ts), the storage
quota governor (services/storageManager.ts, OPFS evolution), and the data
manager (services/dataManager.ts).  IndexedDB object stores are modelled as
association lists keyed exactly the way the stores are keyed (records by id,
uploads by recordId); asynchronous platform calls become explicit state
passing; generated UUIDs become a natural-number supply. -/

namespace UploadSync

/-- UploadQueueItem from types/index.ts: the persisted retry state for one
pending record.  Record ids are modelled as naturals. -/
structure UploadQueueItem where
  recordId : Nat
  timestamp : Nat
  retryCount : Nat
  nextRetryAt : Option Nat
deriving DecidableEq, Repr

/-- The slice of a Record (types/index.ts) that the upload manager reads and
writes: synced, uploadAttempts, lastUploadAttempt, error.  The remaining
payload fields (form, media, location) only feed the multipart body of the
HTTP request and never change, so they are not carried here. -/
structure SyncRecord where
  id : Nat
  timestamp : Nat
  synced : Bool
  uploadAttempts : Option Nat
  lastUploadAttempt : Option Nat
  error : Option String
deriving DecidableEq, Repr

/-- The durable state the upload manager touches: the records store (keyed by
id) and the uploads store (keyed by recordId). -/
structure SyncStore where
  records : List SyncRecord
  queue : List UploadQueueItem
deriving DecidableEq, Repr

/-- getRecord: lookup in the records object store by primary key. -/
def lookupRec (rid : Nat) : List SyncRecord → Option SyncRecord
  | [] => none
  | r :: rs => if r.id == rid then some r else lookupRec rid rs

/-- updateRecord: db.put on the records store — replace the row with the same
key in place, or append a fresh row. -/
def putRec (r : SyncRecord) : List SyncRecord → List SyncRecord
  | [] => [r]
  | x :: xs => if x.id == r.id then r :: xs else x :: putRec r xs

/-- Lookup in the uploads object store by its primary key recordId. -/
def lookupItem (rid : Nat) : List UploadQueueItem → Option UploadQueueItem
  | [] => none
  | it :: q => if it.recordId == rid then some it else lookupItem rid q

/-- addToUploadQueue: db.put on the uploads store (insert or overwrite). -/
def upsertItem (it : UploadQueueItem) : List UploadQueueItem → List UploadQueueItem
  | [] => [it]
  | x :: xs => if x.recordId == it.recordId then it :: xs else x :: upsertItem it xs

/-- deleteUploadQueueItem: db.delete on the uploads store. -/
def eraseItem (rid : Nat) (q : List UploadQueueItem) : List UploadQueueItem :=
  q.filter (fun it => it.recordId != rid)

/-- MAX_RETRIES in uploadManager.ts. -/
def maxRetries : Nat := 5

/-- BASE_RETRY_DELAY in uploadManager.ts (milliseconds). -/
def baseRetryDelay : Nat := 1000

/-- The guard item.nextRetryAt && item.nextRetryAt > Date.now().  A missing
nextRetryAt is falsy; a present value 0 is also falsy in JS, but then
0 > now is false as well, so the match below is equivalent. -/
def shouldDefer (now : Nat) (it : UploadQueueItem) : Bool :=
  match it.nextRetryAt with
  | some t => decide (now < t)
  | none => false

/-- The success-path record update at the end of uploadRecord: synced set,
uploadAttempts := (uploadAttempts || 0) + 1, lastUploadAttempt stamped,
error cleared. -/
def markSynced (now : Nat) (r : SyncRecord) : SyncRecord :=
  { r with
    synced := true
    uploadAttempts := some (r.uploadAttempts.getD 0 + 1)
    lastUploadAttempt := some now
    error := none }

/-- The failure-path queue update in processQueue: nextRetryDelay =
BASE_RETRY_DELAY * 2 ^ retryCount (computed before the increment), then
retryCount++ and nextRetryAt = now + nextRetryDelay. -/
def failedItem (now : Nat) (it : UploadQueueItem) : UploadQueueItem :=
  { it with
    retryCount := it.retryCount + 1
    nextRetryAt := some (now + baseRetryDelay * 2 ^ it.retryCount) }

/-- One iteration of the for-loop in processQueue, processing a single
snapshot item against the current store.  uploadOk is the outcome of the
network round trip for a record that exists; a recordId with no record makes
uploadRecord throw, which the loop catches as an ordinary failure.  The
returned list collects the recordIds for which an upload was attempted. -/
def processItem (uploadOk : Nat → Bool) (now : Nat) (s : SyncStore)
    (it : UploadQueueItem) : SyncStore × List Nat :=
  if shouldDefer now it then (s, [])
  else if maxRetries ≤ it.retryCount then (s, [])
  else
    match lookupRec it.recordId s.records with
    | some r =>
      if uploadOk it.recordId then
        ({ records := putRec (markSynced now r) s.records
           queue := eraseItem it.recordId s.queue }, [it.recordId])
      else
        ({ s with queue := upsertItem (failedItem now it) s.queue }, [it.recordId])
    | none =>
      ({ s with queue := upsertItem (failedItem now it) s.queue }, [it.recordId])

/-- The body of processQueue: fold the per-item step over the queue snapshot
that was read once at the start of the pass, threading the store. -/
def drainList (uploadOk : Nat → Bool) (now : Nat) :
    List UploadQueueItem → SyncStore → SyncStore × List Nat
  | [], s => (s, [])
  | it :: rest, s =>
    let p := processItem uploadOk now s it
    let d := drainList uploadOk now rest p.1
    (d.1, p.2 ++ d.2)

/-- Observable behaviour of one processQueue invocation: whether the queue
snapshot was read at all, and which recordIds had an upload attempted. -/
structure DrainTrace where
  queueRead : Bool
  attempts : List Nat
deriving DecidableEq, Repr

/-- The UploadManager instance state: the in-memory isProcessing flag plus the
durable store.  The retry timers only re-invoke processQueue later and hold no
durable state, so they are not modelled. -/
structure ManagerState where
  isProcessing : Bool
  store : SyncStore
deriving DecidableEq, Repr

/-- processQueue in uploadManager.ts: if isProcessing is already set the call
returns at once without reading the queue; otherwise the flag is set, the
queue snapshot is read and processed, and the flag is cleared in the finally
block. -/
def processQueue (uploadOk : Nat → Bool) (now : Nat) (m : ManagerState) :
    ManagerState × DrainTrace :=
  if m.isProcessing then (m, ⟨false, []⟩)
  else
    let d := drainList uploadOk now m.store.queue m.store
    (⟨false, d.1⟩, ⟨true, d.2⟩)

end UploadSync

namespace QuotaGov

/-- The slice of a Record that the storage quota governor reads: creation
timestamp, synced flag and the byte footprint computed at creation.  Ids are
naturals. -/
structure StoredRecord where
  id : Nat
  timestamp : Nat
  synced : Bool
  sizeBytes : Nat
deriving DecidableEq, Repr

/-- StorageSettings of the OPFS evolution (types/index.ts): maxStorageMB = 0
means unlimited, retentionDays = 0 means keep forever.  The two media-quality
knobs (imageCompressionQuality, videoThumbnailQuality) are only read by the
capture pipeline, never by the storage logic, and are omitted. -/
structure StorageSettings where
  maxStorageMB : Nat
  warnThresholdPercent : Nat
  autoEvict : Bool
  retentionDays : Nat
  deleteSyncedOnly : Bool
deriving DecidableEq, Repr

/-- The state the governor sees: all records ordered by the by-timestamp index
(ascending), the bytes of usage not attributable to records (caches, system
overhead), and the platform quota.  navigator.storage.estimate() usage is
modelled as otherBytes plus the bytes held by the stored records, so deleting
a record frees its sizeBytes. -/
structure QuotaStore where
  records : List StoredRecord
  otherBytes : Nat
  quota : Nat
deriving DecidableEq, Repr

/-- Usage reported by getStorageEstimate on this state. -/
def usage (s : QuotaStore) : Nat :=
  s.otherBytes + (s.records.map (fun r => r.sizeBytes)).sum

/-- removeRecord as seen by the governor: the record row disappears and the
blobs accounted in its sizeBytes are freed.  A missing id is a no-op. -/
def removeRecordQ (rid : Nat) (s : QuotaStore) : QuotaStore :=
  { s with records := s.records.filter (fun r => r.id != rid) }

/-- Millisecond length of one day, as written in storageManager.ts:
retentionDays * 24 * 60 * 60 * 1000. -/
def msPerDay : Nat := 24 * 60 * 60 * 1000

/-- The loop body of applyRetentionPolicy: iterate the getAllRecords snapshot;
skip a record when deleteSyncedOnly is on and it is not synced; delete it when
its timestamp is before the cutoff, counting deletions. -/
def retentionLoop (settings : StorageSettings) (cutoff : Int) :
    List StoredRecord → QuotaStore → Nat → QuotaStore × Nat
  | [], s, n => (s, n)
  | r :: rest, s, n =>
    if settings.deleteSyncedOnly && !r.synced then
      retentionLoop settings cutoff rest s n
    else if (r.timestamp : Int) < cutoff then
      retentionLoop settings cutoff rest (removeRecordQ r.id s) (n + 1)
    else
      retentionLoop settings cutoff rest s n

/-- applyRetentionPolicy (storageManager.ts, OPFS evolution): with
retentionDays > 0, delete every unprotected record older than
now - retentionDays days and return the count; otherwise do nothing. -/
def applyRetentionPolicy (settings : StorageSettings) (now : Nat)
    (s : QuotaStore) : QuotaStore × Nat :=
  if 0 < settings.retentionDays then
    retentionLoop settings ((now : Int) - settings.retentionDays * msPerDay)
      s.records s 0
  else (s, 0)

/-- A record is eligible for retention deletion when it is not protected (the
protection being deleteSyncedOnly set while the record is unsynced) and its
timestamp is strictly before the cutoff. -/
def retentionEligible (settings : StorageSettings) (cutoff : Int)
    (r : StoredRecord) : Bool :=
  !(settings.deleteSyncedOnly && !r.synced) && decide ((r.timestamp : Int) < cutoff)

/-- Characterization helper: keep a record unless it is retention-eligible and
its id belongs to the processed snapshot (given by its ids). -/
def retentionKeep (settings : StorageSettings) (cutoff : Int) (ids : List Nat)
    (x : StoredRecord) : Bool :=
  !(retentionEligible settings cutoff x && decide (x.id ∈ ids))

/-- Admission failures thrown by ensureStorageSpace. -/
inductive StorageFailure where
  | limitExceeded
  | couldNotFree
deriving DecidableEq, Repr

/-- The effective ceiling computed inline in ensureStorageSpace (OPFS
evolution): start from the quota and clamp it by the user limit when
maxStorageMB > 0.  This evolution has no maxStoragePercent fallback. -/
def maxAllowedBytes (settings : StorageSettings) (quota : Nat) : Nat :=
  if 0 < settings.maxStorageMB then
    min quota (settings.maxStorageMB * 1024 * 1024)
  else quota

/-- The size-based eviction loop of ensureStorageSpace: iterate the
getOldestRecords(100) snapshot; break once freedBytes >= bytesToFree; never
delete an unsynced record while deleteSyncedOnly is on; otherwise delete and
accumulate the freed bytes.  bytesToFree is rational because the source adds a
fractional 20 percent buffer. -/
def evictLoop (settings : StorageSettings) (bytesToFree : ℚ) :
    List StoredRecord → ℚ → QuotaStore → QuotaStore × ℚ
  | [], freed, s => (s, freed)
  | r :: rest, freed, s =>
    if bytesToFree ≤ freed then (s, freed)
    else if settings.deleteSyncedOnly && !r.synced then
      evictLoop settings bytesToFree rest freed s
    else
      evictLoop settings bytesToFree rest (freed + r.sizeBytes) (removeRecordQ r.id s)

/-- ensureStorageSpace (storageManager.ts, OPFS evolution).  Success returns
the possibly shrunk store with no failure; the two throw sites are the
autoEvict=false shortfall and the post-eviction re-check.  The 0.2 buffer is
modelled as the exact rational 2/10; the IEEE double written 0.2 differs from
it by less than 2^-54, and no claim checked here depends on that gap. -/
def ensureStorageSpace (settings : StorageSettings) (now requiredBytes : Nat)
    (s : QuotaStore) : QuotaStore × Option StorageFailure :=
  let projected := usage s + requiredBytes
  let maxAllowed := maxAllowedBytes settings s.quota
  if projected ≤ maxAllowed then (s, none)
  else if !settings.autoEvict then (s, some .limitExceeded)
  else
    let bytesToFree : ℚ := ((projected : ℚ) - (maxAllowed : ℚ)) + (requiredBytes : ℚ) * (2 / 10)
    let s1 := (applyRetentionPolicy settings now s).1
    let s2 := (evictLoop settings bytesToFree (s1.records.take 100) 0 s1).1
    if maxAllowed < usage s2 + requiredBytes then (s2, some .couldNotFree)
    else (s2, none)

/-- StorageSettings of the pre-OPFS evolution (src/types/index.ts): both
limits optional. -/
structure LegacySettings where
  maxStorageMB : Option Nat
  maxStoragePercent : Option Nat
  warnThresholdPercent : Nat
  autoEvict : Bool
deriving DecidableEq, Repr

/-- JS truthiness of an optional numeric setting: undefined and 0 are falsy. -/
def truthyNat : Option Nat → Bool
  | some n => decide (n ≠ 0)
  | none => false

/-- getMaxAllowedStorage (pre-OPFS storageManager.ts): a truthy maxStorageMB
gives maxStorageMB * 1024 * 1024 with no clamp to the quota; else a truthy
maxStoragePercent with a positive quota gives quota * maxStoragePercent / 100;
else the raw quota.  The percent division is rational. -/
def getMaxAllowedStorage (settings : LegacySettings) (quota : Nat) : ℚ :=
  if truthyNat settings.maxStorageMB then
    ((settings.maxStorageMB.getD 0 : ℚ) * 1024 * 1024)
  else if truthyNat settings.maxStoragePercent && decide (0 < quota) then
    ((quota : ℚ) * (settings.maxStoragePercent.getD 0 : ℚ)) / 100
  else (quota : ℚ)

/-- The ceiling formula asserted by the specification, written from its words
for comparison with the two implementations: min(quota, maxStorageMB*1MB)
when maxStorageMB > 0, else quota*maxStoragePercent/100 when maxStoragePercent
is set and quota > 0, else the raw quota. -/
def claimedCeiling (maxStorageMB maxStoragePercent : Option Nat) (quota : Nat) : ℚ :=
  if 0 < maxStorageMB.getD 0 then
    min (quota : ℚ) ((maxStorageMB.getD 0 : ℚ) * 1024 * 1024)
  else if truthyNat maxStoragePercent && decide (0 < quota) then
    ((quota : ℚ) * (maxStoragePercent.getD 0 : ℚ)) / 100
  else (quota : ℚ)

end QuotaGov

namespace DataMgr

/-- Media kind from types/index.ts. -/
inductive MType where
  | photo
  | video
  | file
deriving DecidableEq, Repr

/-- Scalar form value from types/index.ts FormData. -/
inductive FormValue where
  | str (v : String)
  | num (v : Int)
  | bool (v : Bool)
  | null
deriving DecidableEq, Repr

/-- One input file handed to createRecord: blob bytes are represented by their
size, blob.type is the mime string, and the optional thumbnail blob by its
size. -/
structure FileInput where
  blobSize : Nat
  blobMime : String
  ftype : MType
  thumbnail : Option Nat
  originalName : Option String
deriving DecidableEq, Repr

/-- An OPFS file key as produced by saveFileToOPFS: generated UUID (a counter
value here) plus the extension used in the generated file name. -/
structure FileKey where
  uuid : Nat
  ext : String
deriving DecidableEq, Repr

/-- MediaMetadata from types/index.ts, with OPFS file names as FileKeys. -/
structure MediaMetadata where
  mediaId : Nat
  mtype : MType
  mimeType : String
  size : Nat
  createdAt : Nat
  fileName : FileKey
  thumbnailFileName : Option FileKey
  originalName : Option String
deriving DecidableEq, Repr

/-- Record from types/index.ts (synced stored as 0/1, modelled as Bool). -/
structure DRecord where
  id : Nat
  timestamp : Nat
  form : List (String × FormValue)
  media : List MediaMetadata
  synced : Bool
  sizeBytes : Nat
deriving DecidableEq, Repr

/-- UploadQueueItem as enqueued by saveAndQueueRecord. -/
structure QueueItem where
  recordId : Nat
  timestamp : Nat
  retryCount : Nat
  nextRetryAt : Option Nat
deriving DecidableEq, Repr

/-- The whole persistent state the data manager touches: the UUID supply, the
OPFS blob store (key to blob size), the records store and the uploads
store. -/
structure AppState where
  nextUUID : Nat
  opfs : List (FileKey × Nat)
  records : List DRecord
  queue : List QueueItem
deriving DecidableEq, Repr

/-- Extension derivation in createRecord: mimeParts = blob.type.split('/');
mimeParts[1] ? mimeParts[1].split(';')[0] : 'bin'. -/
def extFromMime (mime : String) : String :=
  match (mime.splitOn ("/")).get? 1 with
  | some sub => if sub = "" then "bin" else (sub.splitOn (";")).headD ("")
  | none => "bin"

/-- Lookup of an OPFS file by name. -/
def lookupBlob (k : FileKey) : List (FileKey × Nat) → Option Nat
  | [] => none
  | e :: es => if e.1 == k then some e.2 else lookupBlob k es

/-- getFileHandle(name, create) followed by a write: replace or add. -/
def putBlob (k : FileKey) (size : Nat) : List (FileKey × Nat) → List (FileKey × Nat)
  | [] => [(k, size)]
  | e :: es => if e.1 == k then (k, size) :: es else e :: putBlob k size es

/-- deleteFileFromOPFS: root.removeEntry, tolerating an absent name. -/
def deleteBlob (k : FileKey) (bs : List (FileKey × Nat)) : List (FileKey × Nat) :=
  bs.filter (fun e => e.1 != k)

/-- saveFileToOPFS: generate a fresh UUID-based file name for the given
extension and write the blob under it. -/
def saveFileToOPFS (blobSize : Nat) (ext : String) (st : AppState) :
    FileKey × AppState :=
  let k : FileKey := ⟨st.nextUUID, ext⟩
  (k, { st with nextUUID := st.nextUUID + 1, opfs := putBlob k blobSize st.opfs })

/-- generateUUID, modelled as drawing the next counter value. -/
def genUUID (st : AppState) : Nat × AppState :=
  (st.nextUUID, { st with nextUUID := st.nextUUID + 1 })

/-- Lookup in the records store by id. -/
def lookupRecD (rid : Nat) : List DRecord → Option DRecord
  | [] => none
  | r :: rs => if r.id == rid then some r else lookupRecD rid rs

/-- db.addRecord (keyed put for this model). -/
def putRecD (r : DRecord) : List DRecord → List DRecord
  | [] => [r]
  | x :: xs => if x.id == r.id then r :: xs else x :: putRecD r xs

/-- db.delete on the records store. -/
def eraseRecD (rid : Nat) (rs : List DRecord) : List DRecord :=
  rs.filter (fun r => r.id != rid)

/-- addToUploadQueue (db.put keyed by recordId). -/
def putQueueItem (it : QueueItem) : List QueueItem → List QueueItem
  | [] => [it]
  | x :: xs => if x.recordId == it.recordId then it :: xs else x :: putQueueItem it xs

/-- Lookup in the uploads store by recordId. -/
def lookupQueue (rid : Nat) : List QueueItem → Option QueueItem
  | [] => none
  | it :: q => if it.recordId == rid then some it else lookupQueue rid q

/-- deleteUploadQueueItem. -/
def eraseQueue (rid : Nat) (q : List QueueItem) : List QueueItem :=
  q.filter (fun it => it.recordId != rid)

/-- The per-file body of createRecord's first loop, in source order: save the
main blob (extension derived from the mime type), save the thumbnail when
present (extension jpg) adding its size, add the blob size, then generate the
mediaId and append the MediaMetadata.  Returns the metadata list, the
accumulated total size and the threaded state. -/
def createMediaLoop (now : Nat) :
    List FileInput → List MediaMetadata → Nat → AppState →
    List MediaMetadata × Nat × AppState
  | [], acc, total, st => (acc, total, st)
  | f :: rest, acc, total, st =>
    let ext := extFromMime f.blobMime
    let s1 := saveFileToOPFS f.blobSize ext st
    let tRes : Option FileKey × Nat × AppState :=
      match f.thumbnail with
      | some tSize =>
        let s2 := saveFileToOPFS tSize ("jpg") s1.2
        (some s2.1, total + tSize, s2.2)
      | none => (none, total, s1.2)
    let total2 := tRes.2.1 + f.blobSize
    let s3 := genUUID tRes.2.2
    let meta : MediaMetadata :=
      { mediaId := s3.1
        mtype := f.ftype
        mimeType := f.blobMime
        size := f.blobSize
        createdAt := now
        fileName := s1.1
        thumbnailFileName := tRes.1
        originalName := f.originalName }
    createMediaLoop now rest (acc ++ [meta]) total2 s3.2

/-- createRecord (dataManager.ts): write all files to OPFS, build the record
with synced = 0 and the accumulated sizeBytes, persist it, and enqueue an
upload item with retryCount 0.  The fire-and-forget drain attempt and the
best-effort background-sync registration perform no further writes of their
own here; the drain pass is modelled separately in UploadSync. -/
def createRecord (now : Nat) (form : List (String × FormValue))
    (files : List FileInput) (st : AppState) : DRecord × AppState :=
  let l := createMediaLoop now files [] 0 st
  let u := genUUID l.2.2
  let newRec : DRecord :=
    { id := u.1
      timestamp := now
      form := form
      media := l.1
      synced := false
      sizeBytes := l.2.1 }
  let st1 := { u.2 with records := putRecD newRec u.2.records }
  let st2 := { st1 with queue := putQueueItem ⟨newRec.id, now, 0, none⟩ st1.queue }
  (newRec, st2)

/-- Delete the OPFS files referenced by a media list: for each entry the main
file, then the thumbnail when present. -/
def deleteMediaBlobs : List MediaMetadata → List (FileKey × Nat) → List (FileKey × Nat)
  | [], bs => bs
  | m :: rest, bs =>
    let bs1 := deleteBlob m.fileName bs
    let bs2 :=
      match m.thumbnailFileName with
      | some t => deleteBlob t bs1
      | none => bs1
    deleteMediaBlobs rest bs2

/-- removeRecord (dataManager.ts): load the record (absent id is a no-op),
delete every referenced OPFS file, then deleteRecordMetadata: the record row
and any upload-queue item for the id. -/
def removeRecord (rid : Nat) (st : AppState) : AppState :=
  match lookupRecD rid st.records with
  | none => st
  | some r =>
    { st with
      opfs := deleteMediaBlobs r.media st.opfs
      records := eraseRecD rid st.records
      queue := eraseQueue rid st.queue }

end DataMgr

namespace UploadSync

/-- C8: a processQueue call made while a drain pass is already in flight (the
in-memory isProcessing flag is set) is a no-op: the manager state is
unchanged, the queue snapshot is not read, and no upload is attempted. -/
theorem processQueue_inflight_noop (uploadOk : Nat → Bool) (now : Nat)
    (m : ManagerState) (h : m.isProcessing = true) :
    processQueue uploadOk now m = (m, ⟨false, []⟩) := by
  simp [processQueue, h]

/-- Witness for processQueue_inflight_noop at a concrete in-flight state. -/
theorem processQueue_inflight_noop_witness :
    (⟨true, ⟨[], []⟩⟩ : ManagerState).isProcessing = true ∧
      processQueue (fun _ => true) 0 ⟨true, ⟨[], []⟩⟩ =
        ((⟨true, ⟨[], []⟩⟩ : ManagerState), ⟨false, []⟩) :=
  ⟨rfl, processQueue_inflight_noop (fun _ => true) 0 ⟨true, ⟨[], []⟩⟩ rfl⟩

end UploadSync

namespace QuotaGov

/-- With deleteSyncedOnly on, the retention loop skips every unsynced record,
so a store of only unsynced records is left untouched. -/
theorem retentionLoop_all_protected (settings : StorageSettings) (cutoff : Int)
    (hD : settings.deleteSyncedOnly = true) :
    ∀ (L : List StoredRecord) (s : QuotaStore) (n : Nat),
      (∀ r ∈ L, r.synced = false) →
      retentionLoop settings cutoff L s n = (s, n) := by
  intro L
  induction L with
  | nil => intro s n _; rfl
  | cons r rest ih =>
    intro s n hU
    have hr : r.synced = false := hU r (List.mem_cons_self r rest)
    have hrest : ∀ x ∈ rest, x.synced = false := fun x hx => hU x (List.mem_cons_of_mem r hx)
    simp [retentionLoop, hD, hr, ih s n hrest]

/-- With deleteSyncedOnly on and every record unsynced, applyRetentionPolicy
deletes nothing and returns 0. -/
theorem applyRetentionPolicy_all_protected (settings : StorageSettings)
    (now : Nat) (s : QuotaStore) (hD : settings.deleteSyncedOnly = true)
    (hU : ∀ r ∈ s.records, r.synced = false) :
    applyRetentionPolicy settings now s = (s, 0) := by
  unfold applyRetentionPolicy
  split
  · exact retentionLoop_all_protected settings _ hD s.records s 0 hU
  · rfl

/-- With deleteSyncedOnly on, the size-based eviction loop never deletes an
unsynced record, so a snapshot of only unsynced records frees nothing. -/
theorem evictLoop_all_protected (settings : StorageSettings) (b : ℚ)
    (hD : settings.deleteSyncedOnly = true) :
    ∀ (L : List StoredRecord) (freed : ℚ) (s : QuotaStore),
      (∀ r ∈ L, r.synced = false) →
      evictLoop settings b L freed s = (s, freed) := by
  intro L
  induction L with
  | nil => intro freed s _; rfl
  | cons r rest ih =>
    intro freed s hU
    have hr : r.synced = false := hU r (List.mem_cons_self r rest)
    have hrest : ∀ x ∈ rest, x.synced = false := fun x hx => hU x (List.mem_cons_of_mem r hx)
    by_cases hb : b ≤ freed
    · simp [evictLoop, hb]
    · simp [evictLoop, hb, hD, hr, ih freed s hrest]

/-- C1: ensureStorageSpace with autoEvict on and deleteSyncedOnly on, every
stored record unsynced, and a projected usage above the ceiling: the eviction
phase deletes zero records (the store comes back unchanged) and the call ends
in the could-not-free error rather than success. -/
theorem ensureStorageSpace_all_unsynced_fails (settings : StorageSettings)
    (now requiredBytes : Nat) (s : QuotaStore)
    (hA : settings.autoEvict = true) (hD : settings.deleteSyncedOnly = true)
    (hU : ∀ r ∈ s.records, r.synced = false)
    (hOver : maxAllowedBytes settings s.quota < usage s + requiredBytes) :
    ensureStorageSpace settings now requiredBytes s =
      (s, some StorageFailure.couldNotFree) := by
  have h1 : ¬ (usage s + requiredBytes ≤ maxAllowedBytes settings s.quota) :=
    Nat.not_le.mpr hOver
  have hRet : applyRetentionPolicy settings now s = (s, 0) :=
    applyRetentionPolicy_all_protected settings now s hD hU
  have hTake : ∀ r ∈ s.records.take 100, r.synced = false :=
    fun r hr => hU r (List.take_subset 100 s.records hr)
  have hEv := evictLoop_all_protected settings
    (((usage s + requiredBytes : ℚ) - (maxAllowedBytes settings s.quota : ℚ)) +
      (requiredBytes : ℚ) * (2 / 10)) hD (s.records.take 100) 0 s hTake
  simp [ensureStorageSpace, h1, hA, hRet, hEv, hOver]

/-- Witness for ensureStorageSpace_all_unsynced_fails: one unsynced record of
80 bytes, 20 other bytes, quota 100, a write of 50 bytes. -/
theorem ensureStorageSpace_all_unsynced_fails_witness :
    ensureStorageSpace ⟨0, 80, true, 0, true⟩ 0 50 ⟨[⟨1, 0, false, 80⟩], 20, 100⟩ =
      ((⟨[⟨1, 0, false, 80⟩], 20, 100⟩ : QuotaStore), some StorageFailure.couldNotFree) :=
  ensureStorageSpace_all_unsynced_fails ⟨0, 80, true, 0, true⟩ 0 50
    ⟨[⟨1, 0, false, 80⟩], 20, 100⟩ rfl rfl
    (by intro r hr; simp at hr; rw [hr]) (by decide)

/-- C5: ensureStorageSpace with autoEvict off and a projected usage above the
ceiling fails with the storage-limit error and leaves the store untouched —
no record and no blob is deleted on this path. -/
theorem ensureStorageSpace_noEvict_fails (settings : StorageSettings)
    (now requiredBytes : Nat) (s : QuotaStore)
    (hA : settings.autoEvict = false)
    (hOver : maxAllowedBytes settings s.quota < usage s + requiredBytes) :
    ensureStorageSpace settings now requiredBytes s =
      (s, some StorageFailure.limitExceeded) := by
  have h1 : ¬ (usage s + requiredBytes ≤ maxAllowedBytes settings s.quota) :=
    Nat.not_le.mpr hOver
  simp [ensureStorageSpace, h1, hA]

/-- Witness for ensureStorageSpace_noEvict_fails: quota 100, usage 90, write
of 50 bytes, autoEvict off. -/
theorem ensureStorageSpace_noEvict_fails_witness :
    ensureStorageSpace ⟨0, 80, false, 0, true⟩ 0 50 ⟨[⟨1, 0, true, 70⟩], 20, 100⟩ =
      ((⟨[⟨1, 0, true, 70⟩], 20, 100⟩ : QuotaStore), some StorageFailure.limitExceeded) :=
  ensureStorageSpace_noEvict_fails ⟨0, 80, false, 0, true⟩ 0 50
    ⟨[⟨1, 0, true, 70⟩], 20, 100⟩ rfl (by decide)

/-- C7 counterexample: the claimed ceiling min(quota, maxStorageMB*1MB) is
not what the code computes.  With maxStorageMB = 1 and quota = 500000 bytes,
getMaxAllowedStorage returns 1048576 — the user limit unclamped by the quota —
while the claimed formula returns 500000. -/
theorem ceiling_claim_counterexample :
    getMaxAllowedStorage ⟨some 1, some 80, 80, true⟩ 500000 ≠
      claimedCeiling (some 1) (some 80) 500000 := by
  have h1 : getMaxAllowedStorage ⟨some 1, some 80, 80, true⟩ 500000 = (1048576 : ℚ) := by
    norm_num [getMaxAllowedStorage, truthyNat]
  have h2 : claimedCeiling (some 1) (some 80) 500000 = (500000 : ℚ) := by
    rw [claimedCeiling]
    norm_num
  rw [h1, h2]
  norm_num

/-- C7 amended: a truthy maxStorageMB makes the legacy getMaxAllowedStorage
return maxStorageMB*1MB with no clamp to the quota; otherwise a truthy
maxStoragePercent with positive quota gives quota*maxStoragePercent/100, else
the raw quota.  The OPFS evolution's admission ceiling is min(quota,
maxStorageMB*1MB) when maxStorageMB > 0 and the raw quota otherwise, with no
percent fallback. -/
theorem ceiling_characterization (ls : LegacySettings) (vs : StorageSettings)
    (quota : Nat) :
    (truthyNat ls.maxStorageMB = true →
      getMaxAllowedStorage ls quota = ((ls.maxStorageMB.getD 0 : ℚ) * 1024 * 1024)) ∧
    (truthyNat ls.maxStorageMB = false → truthyNat ls.maxStoragePercent = true →
      0 < quota →
      getMaxAllowedStorage ls quota =
        ((quota : ℚ) * (ls.maxStoragePercent.getD 0 : ℚ)) / 100) ∧
    (truthyNat ls.maxStorageMB = false →
      (truthyNat ls.maxStoragePercent = false ∨ quota = 0) →
      getMaxAllowedStorage ls quota = (quota : ℚ)) ∧
    (0 < vs.maxStorageMB →
      maxAllowedBytes vs quota = min quota (vs.maxStorageMB * 1024 * 1024)) ∧
    (vs.maxStorageMB = 0 → maxAllowedBytes vs quota = quota) := by
  refine ⟨?_, ?_, ?_, ?_, ?_⟩
  · intro h; simp [getMaxAllowedStorage, h]
  · intro h hp hq; simp [getMaxAllowedStorage, h, hp, hq]
  · intro h hpq
    rcases hpq with hp | hq
    · simp [getMaxAllowedStorage, h, hp]
    · subst hq; simp [getMaxAllowedStorage, h]
  · intro h; simp [maxAllowedBytes, h]
  · intro h; simp [maxAllowedBytes, h]

/-- Witness for ceiling_characterization: maxStorageMB = 1 and quota 500000
yields the unclamped 1048576 bytes in the legacy code, while the OPFS
evolution clamps the same limit to the quota. -/
theorem ceiling_characterization_witness :
    getMaxAllowedStorage ⟨some 1, some 80, 80, true⟩ 500000 = ((1048576 : ℚ)) ∧
      maxAllowedBytes ⟨1, 80, true, 0, true⟩ 500000 = 500000 := by
  have h := ceiling_characterization ⟨some 1, some 80, 80, true⟩ ⟨1, 80, true, 0, true⟩ 500000
  refine ⟨(h.1 (by decide)).trans (by norm_num), (h.2.2.2.1 (by decide)).trans (by decide)⟩

theorem records_id_inj (s : QuotaStore)
    (hnd : (s.records.map (fun r => r.id)).Nodup)
    (x y : StoredRecord) (hx : x ∈ s.records) (hy : y ∈ s.records)
    (he : x.id = y.id) : x = y :=
  List.inj_on_of_nodup_map hnd hx hy he

/-- The retention loop, run on a snapshot L of records all present in a store
with duplicate-free ids, removes from the store exactly the snapshot records
eligible for deletion and counts them. -/
theorem retentionLoop_spec (settings : StorageSettings) (cutoff : Int) :
    ∀ (L : List StoredRecord) (s : QuotaStore) (n : Nat),
      (∀ r ∈ L, r ∈ s.records) →
      ((s.records.map (fun r => r.id)).Nodup) →
      ((L.map (fun r => r.id)).Nodup) →
      retentionLoop settings cutoff L s n =
        ({ s with records := s.records.filter (retentionKeep settings cutoff (L.map (fun r => r.id))) },
         n + L.countP (fun r => retentionEligible settings cutoff r)) := by
  intro L
  induction L with
  | nil =>
    intro s n _ _ _
    have hf : s.records.filter (retentionKeep settings cutoff []) = s.records := by
      rw [List.filter_eq_self]
      intro a _
      simp [retentionKeep]
    simp [retentionLoop, hf]
  | cons r rest ih =>
    intro s n hsub hndS hndL
    have hrs : r ∈ s.records := hsub r (List.mem_cons_self r rest)
    have hrest : ∀ y ∈ rest, y ∈ s.records := fun y hy => hsub y (List.mem_cons_of_mem r hy)
    have hndL' : (r.id :: rest.map (fun x => x.id)).Nodup := by simpa using hndL
    have hndL1 := List.nodup_cons.mp hndL' 
    have hidr : r.id ∉ rest.map (fun x => x.id) := hndL1.1
    by_cases hprot : (settings.deleteSyncedOnly && !r.synced) = true
    · have helig : retentionEligible settings cutoff r = false := by
        simp [retentionEligible, hprot]
      have hres := ih s n hrest hndS hndL1.2
      rw [retentionLoop, if_pos hprot, hres]
      have hfeq : s.records.filter (retentionKeep settings cutoff (rest.map (fun y => y.id))) =
          s.records.filter (retentionKeep settings cutoff ((r :: rest).map (fun y => y.id))) := by
        apply List.filter_congr
        intro x hx
        by_cases hxe : retentionEligible settings cutoff x = true
        · by_cases hxr : x.id = r.id
          · have hxeq : x = r := records_id_inj s hndS x r hx hrs hxr
            rw [hxeq] at hxe
            rw [helig] at hxe
            cases hxe
          · simp [retentionKeep, hxe, hxr]
        · simp only [Bool.not_eq_true] at hxe
          simp [retentionKeep, hxe]
      rw [hfeq]
      have hcnt : (r :: rest).countP (fun x => retentionEligible settings cutoff x) =
          rest.countP (fun x => retentionEligible settings cutoff x) := by
        simp [List.countP_cons, helig]
      rw [hcnt]
    · by_cases hts : (r.timestamp : Int) < cutoff
      · have helig : retentionEligible settings cutoff r = true := by
          simp [retentionEligible, hprot, hts]
        have hsub1 : ∀ y ∈ rest, y ∈ (removeRecordQ r.id s).records := by
          intro y hy
          have hyid : y.id ≠ r.id := by
            intro e
            exact hidr (by simpa [← e] using List.mem_map.mpr ⟨y, hy, rfl⟩)
          simp only [removeRecordQ, List.mem_filter]
          exact ⟨hrest y hy, by simpa using hyid⟩
        have hndS1 : (((removeRecordQ r.id s).records.map (fun x => x.id)).Nodup) := by
          have hsl : (removeRecordQ r.id s).records.Sublist s.records :=
            List.filter_sublist s.records
          exact (hsl.map (fun x => x.id)).nodup hndS
        have hres := ih (removeRecordQ r.id s) (n + 1) hsub1 hndS1 hndL1.2
        rw [retentionLoop, if_neg hprot, if_pos hts, hres]
        have hrec : (removeRecordQ r.id s).records.filter (retentionKeep settings cutoff (rest.map (fun y => y.id))) =
            s.records.filter (retentionKeep settings cutoff ((r :: rest).map (fun y => y.id))) := by
          simp only [removeRecordQ]
          rw [List.filter_filter]
          apply List.filter_congr
          intro x hx
          by_cases hxr : x.id = r.id
          · have hxeq : x = r := records_id_inj s hndS x r hx hrs hxr
            subst hxeq
            simp [retentionKeep, helig, hxr]
          · simp [retentionKeep, hxr]
        have hcnt : n + (r :: rest).countP (fun x => retentionEligible settings cutoff x) =
            n + 1 + rest.countP (fun x => retentionEligible settings cutoff x) := by
          simp [List.countP_cons, helig]
          omega
        rw [hrec, hcnt]
        simp [removeRecordQ]
      · have helig : retentionEligible settings cutoff r = false := by
          simp [retentionEligible, hprot, hts]
        have hres := ih s n hrest hndS hndL1.2
        rw [retentionLoop, if_neg hprot, if_neg hts, hres]
        have hfeq : s.records.filter (retentionKeep settings cutoff (rest.map (fun y => y.id))) =
            s.records.filter (retentionKeep settings cutoff ((r :: rest).map (fun y => y.id))) := by
          apply List.filter_congr
          intro x hx
          by_cases hxe : retentionEligible settings cutoff x = true
          · by_cases hxr : x.id = r.id
            · have hxeq : x = r := records_id_inj s hndS x r hx hrs hxr
              rw [hxeq] at hxe
              rw [helig] at hxe
              cases hxe
            · simp [retentionKeep, hxe, hxr]
          · simp only [Bool.not_eq_true] at hxe
            simp [retentionKeep, hxe]
        rw [hfeq]
        have hcnt : (r :: rest).countP (fun x => retentionEligible settings cutoff x) =
            rest.countP (fun x => retentionEligible settings cutoff x) := by
          simp [List.countP_cons, helig]
        rw [hcnt]

/-- C6: applyRetentionPolicy with retentionDays > 0 deletes exactly the
records older than now - retentionDays days that are not protected by
deleteSyncedOnly while unsynced, leaves every other record (and the rest of
the store) in place, and returns the number deleted; with retentionDays = 0
it deletes nothing and returns 0. -/
theorem applyRetentionPolicy_deletes_exactly (settings : StorageSettings)
    (now : Nat) (s : QuotaStore)
    (hnd : (s.records.map (fun r => r.id)).Nodup) :
    applyRetentionPolicy settings now s =
      if 0 < settings.retentionDays then
        ({ s with records := s.records.filter (fun r => !(retentionEligible settings ((now : Int) - settings.retentionDays * msPerDay) r)) },
         s.records.countP (fun r => retentionEligible settings ((now : Int) - settings.retentionDays * msPerDay) r))
      else (s, 0) := by
  by_cases hd : 0 < settings.retentionDays
  · rw [applyRetentionPolicy, if_pos hd, if_pos hd]
    have hres := retentionLoop_spec settings
      ((now : Int) - settings.retentionDays * msPerDay) s.records s 0
      (fun r hr => hr) hnd hnd
    rw [hres]
    have hfeq : s.records.filter (retentionKeep settings ((now : Int) - settings.retentionDays * msPerDay) (s.records.map (fun r => r.id))) =
        s.records.filter (fun r => !(retentionEligible settings ((now : Int) - settings.retentionDays * msPerDay) r)) := by
      apply List.filter_congr
      intro x hx
      have hmem : x.id ∈ s.records.map (fun r => r.id) := List.mem_map.mpr ⟨x, hx, rfl⟩
      simp [retentionKeep, hmem]
    rw [hfeq]
    simp
  · rw [applyRetentionPolicy, if_neg hd, if_neg hd]

/-- Witness for applyRetentionPolicy_deletes_exactly, mirroring the spec
scenario: retentionDays = 30, deleteSyncedOnly on, one synced record 40 days
old (timestamp day 10 at now = day 50) and one unsynced record of the same age
— the synced one is deleted, the unsynced one is protected, count is 1. -/
theorem applyRetentionPolicy_deletes_exactly_witness :
    applyRetentionPolicy ⟨0, 80, false, 30, true⟩ 4320000000
        ⟨[⟨1, 864000000, true, 100⟩, ⟨2, 864000000, false, 50⟩], 0, 10000000000⟩ =
      (⟨[⟨2, 864000000, false, 50⟩], 0, 10000000000⟩, 1) := by
  have h := applyRetentionPolicy_deletes_exactly ⟨0, 80, false, 30, true⟩ 4320000000
    ⟨[⟨1, 864000000, true, 100⟩, ⟨2, 864000000, false, 50⟩], 0, 10000000000⟩ (by decide)
  rw [h]
  decide

end QuotaGov

namespace UploadSync

theorem failedItem_recordId (now : Nat) (it : UploadQueueItem) :
    (failedItem now it).recordId = it.recordId := rfl

theorem markSynced_id (now : Nat) (r : SyncRecord) :
    (markSynced now r).id = r.id := rfl

theorem lookupItem_upsert_self (it : UploadQueueItem) (q : List UploadQueueItem) :
    lookupItem it.recordId (upsertItem it q) = some it := by
  induction q with
  | nil => simp [upsertItem, lookupItem]
  | cons x xs ih =>
    by_cases h : x.recordId = it.recordId
    · simp [upsertItem, lookupItem, h]
    · simp [upsertItem, lookupItem, h, ih]

theorem lookupItem_upsert_ne (k : Nat) (it : UploadQueueItem)
    (q : List UploadQueueItem) (h : k ≠ it.recordId) :
    lookupItem k (upsertItem it q) = lookupItem k q := by
  have h' : ¬ it.recordId = k := by
    intro e
    exact h e.symm
  induction q with
  | nil => simp [upsertItem, lookupItem, h']
  | cons x xs ih =>
    by_cases hx : x.recordId = it.recordId
    · have hxk : ¬ x.recordId = k := by
        rw [hx]
        exact h'
      simp [upsertItem, lookupItem, hx, h', hxk]
    · by_cases hk : x.recordId = k
      · simp [upsertItem, lookupItem, hx, hk, h]
      · simp [upsertItem, lookupItem, hx, hk, ih]

theorem lookupItem_erase_self (k : Nat) (q : List UploadQueueItem) :
    lookupItem k (eraseItem k q) = none := by
  induction q with
  | nil => rfl
  | cons x xs ih =>
    by_cases hx : x.recordId = k
    · simpa [eraseItem, hx] using ih
    · simpa [eraseItem, lookupItem, hx] using ih

theorem lookupItem_erase_ne (k rid : Nat) (q : List UploadQueueItem)
    (h : k ≠ rid) :
    lookupItem k (eraseItem rid q) = lookupItem k q := by
  induction q with
  | nil => rfl
  | cons x xs ih =>
    by_cases hx : x.recordId = rid
    · have hxk : ¬ x.recordId = k := by
        intro e
        exact h (e.symm.trans hx)
      have hrk : ¬ rid = k := by
        intro e
        exact h e.symm
      simpa [eraseItem, lookupItem, hx, hxk, hrk, h] using ih
    · by_cases hk : x.recordId = k
      · simp [eraseItem, lookupItem, hx, hk, h]
      · simpa [eraseItem, lookupItem, hx, hk, h] using ih

theorem lookupItem_of_mem_nodup (it : UploadQueueItem)
    (q : List UploadQueueItem)
    (hnd : (q.map (fun x => x.recordId)).Nodup) (hm : it ∈ q) :
    lookupItem it.recordId q = some it := by
  induction q with
  | nil => cases hm
  | cons x xs ih =>
    rcases List.mem_cons.mp hm with he | hxs
    · simp [lookupItem, he]
    · have hx : ¬ x.recordId = it.recordId := by
        intro e
        have hmm : it.recordId ∈ xs.map (fun y => y.recordId) :=
          List.mem_map.mpr ⟨it, hxs, rfl⟩
        rw [← e] at hmm
        exact (List.nodup_cons.mp hnd).1 hmm
      simp [lookupItem, hx, ih (List.nodup_cons.mp hnd).2 hxs]

theorem lookupRec_some_id (k : Nat) (rs : List SyncRecord) (r : SyncRecord)
    (h : lookupRec k rs = some r) : r.id = k := by
  induction rs with
  | nil => cases h
  | cons x xs ih =>
    by_cases hx : x.id = k
    · simp [lookupRec, hx] at h
      rw [← h, hx]
    · simp [lookupRec, hx] at h
      exact ih h

theorem lookupRec_put_ne (k : Nat) (r : SyncRecord) (rs : List SyncRecord)
    (h : k ≠ r.id) :
    lookupRec k (putRec r rs) = lookupRec k rs := by
  have h' : ¬ r.id = k := by
    intro e
    exact h e.symm
  induction rs with
  | nil => simp [putRec, lookupRec, h']
  | cons x xs ih =>
    by_cases hx : x.id = r.id
    · have hxk : ¬ x.id = k := by
        rw [hx]
        exact h'
      simp [putRec, lookupRec, hx, h', hxk]
    · by_cases hk : x.id = k
      · simp [putRec, lookupRec, hx, hk, h]
      · simp [putRec, lookupRec, hx, hk, ih]

theorem processItem_abandoned (uploadOk : Nat → Bool) (now : Nat)
    (s : SyncStore) (it : UploadQueueItem) (h : maxRetries ≤ it.retryCount) :
    processItem uploadOk now s it = (s, []) := by
  unfold processItem
  split
  · rfl
  · simp [h]

theorem processItem_fail (uploadOk : Nat → Bool) (now : Nat) (s : SyncStore)
    (it : UploadQueueItem) (hdef : shouldDefer now it = false)
    (hretry : it.retryCount < maxRetries)
    (hfail : lookupRec it.recordId s.records = none ∨ uploadOk it.recordId = false) :
    processItem uploadOk now s it =
      ({ s with queue := upsertItem (failedItem now it) s.queue }, [it.recordId]) := by
  have hr : ¬ maxRetries ≤ it.retryCount := Nat.not_le.mpr hretry
  rcases hfail with hnone | hok
  · simp [processItem, hdef, hr, hnone]
  · cases hlk : lookupRec it.recordId s.records with
    | none => simp [processItem, hdef, hr, hlk]
    | some r => simp [processItem, hdef, hr, hlk, hok]

theorem processItem_queue_frame (uploadOk : Nat → Bool) (now : Nat)
    (s : SyncStore) (it : UploadQueueItem) (k : Nat) (h : k ≠ it.recordId) :
    lookupItem k (processItem uploadOk now s it).1.queue = lookupItem k s.queue := by
  unfold processItem
  split
  · rfl
  · split
    · rfl
    · cases hlk : lookupRec it.recordId s.records with
      | none => simpa using lookupItem_upsert_ne k (failedItem now it) s.queue h
      | some r =>
        by_cases hok : uploadOk it.recordId = true
        · simpa [hok] using lookupItem_erase_ne k it.recordId s.queue h
        · simp only [Bool.not_eq_true] at hok
          simpa [hok] using lookupItem_upsert_ne k (failedItem now it) s.queue h

theorem processItem_records_none (uploadOk : Nat → Bool) (now : Nat)
    (s : SyncStore) (it : UploadQueueItem) (k : Nat)
    (h : lookupRec k s.records = none) :
    lookupRec k (processItem uploadOk now s it).1.records = none := by
  unfold processItem
  split
  · exact h
  · split
    · exact h
    · cases hlk : lookupRec it.recordId s.records with
      | none => simpa using h
      | some r =>
        by_cases hok : uploadOk it.recordId = true
        · have hne : k ≠ r.id := by
            intro e
            rw [lookupRec_some_id it.recordId s.records r hlk] at e
            rw [e] at h
            rw [h] at hlk
            cases hlk
          simpa [hok] using
            (lookupRec_put_ne k (markSynced now r) s.records hne).trans h
        · simp only [Bool.not_eq_true] at hok
          simpa [hok] using h

theorem processItem_attempts (uploadOk : Nat → Bool) (now : Nat)
    (s : SyncStore) (it : UploadQueueItem) :
    ∀ a ∈ (processItem uploadOk now s it).2, a = it.recordId := by
  unfold processItem
  split
  · simp
  · split
    · simp
    · cases hlk : lookupRec it.recordId s.records with
      | none => simp
      | some r =>
        by_cases hok : uploadOk it.recordId = true
        · simp [hok]
        · simp only [Bool.not_eq_true] at hok
          simp [hok]

theorem drainList_queue_frame (uploadOk : Nat → Bool) (now : Nat) (k : Nat) :
    ∀ (L : List UploadQueueItem) (s : SyncStore),
      (∀ x ∈ L, x.recordId ≠ k) →
      lookupItem k (drainList uploadOk now L s).1.queue = lookupItem k s.queue := by
  intro L
  induction L with
  | nil => intro s _; rfl
  | cons x rest ih =>
    intro s hL
    have hx : k ≠ x.recordId := by
      intro e
      exact hL x (List.mem_cons_self x rest) e.symm
    have hrest : ∀ y ∈ rest, y.recordId ≠ k := fun y hy => hL y (List.mem_cons_of_mem x hy)
    calc lookupItem k (drainList uploadOk now (x :: rest) s).1.queue
        = lookupItem k (processItem uploadOk now s x).1.queue := by
          simpa [drainList] using ih (processItem uploadOk now s x).1 hrest
      _ = lookupItem k s.queue := processItem_queue_frame uploadOk now s x k hx

theorem drainList_attempts (uploadOk : Nat → Bool) (now : Nat) :
    ∀ (L : List UploadQueueItem) (s : SyncStore) (a : Nat),
      a ∈ (drainList uploadOk now L s).2 → ∃ x ∈ L, a = x.recordId := by
  intro L
  induction L with
  | nil => intro s a ha; cases ha
  | cons x rest ih =>
    intro s a ha
    simp only [drainList] at ha
    rcases List.mem_append.mp ha with hp | hd
    · exact ⟨x, List.mem_cons_self x rest,
        processItem_attempts uploadOk now s x a hp⟩
    · rcases ih (processItem uploadOk now s x).1 a hd with ⟨y, hy, he⟩
      exact ⟨y, List.mem_cons_of_mem x hy, he⟩

theorem drainList_records_none (uploadOk : Nat → Bool) (now : Nat) (k : Nat) :
    ∀ (L : List UploadQueueItem) (s : SyncStore),
      lookupRec k s.records = none →
      lookupRec k (drainList uploadOk now L s).1.records = none := by
  intro L
  induction L with
  | nil => intro s h; exact h
  | cons x rest ih =>
    intro s h
    simpa [drainList] using
      ih (processItem uploadOk now s x).1 (processItem_records_none uploadOk now s x k h)

theorem drainList_abandoned (uploadOk : Nat → Bool) (now : Nat)
    (it : UploadQueueItem) (hmax : maxRetries ≤ it.retryCount) :
    ∀ (L : List UploadQueueItem) (s : SyncStore),
      (L.map (fun x => x.recordId)).Nodup → it ∈ L →
      lookupItem it.recordId s.queue = some it →
      lookupItem it.recordId (drainList uploadOk now L s).1.queue = some it ∧
        it.recordId ∉ (drainList uploadOk now L s).2 := by
  intro L
  induction L with
  | nil => intro s _ hm; cases hm
  | cons x rest ih =>
    intro s hnd hm hlk
    have hnd1 := List.nodup_cons.mp hnd
    rcases List.mem_cons.mp hm with he | hrest
    · subst he
      have hstep : processItem uploadOk now s it = (s, []) :=
        processItem_abandoned uploadOk now s it hmax
      have hk : ∀ y ∈ rest, y.recordId ≠ it.recordId := by
        intro y hy e
        exact hnd1.1 (List.mem_map.mpr ⟨y, hy, e⟩)
      constructor
      · simpa [drainList, hstep] using
          (drainList_queue_frame uploadOk now it.recordId rest s hk).trans hlk
      · intro hmem
        simp only [drainList, hstep] at hmem
        rcases drainList_attempts uploadOk now rest s it.recordId (by simpa using hmem)
          with ⟨y, hy, he⟩
        exact hk y hy he.symm
    · have hx : x.recordId ≠ it.recordId := by
        intro e
        have hmm : it.recordId ∈ rest.map (fun y => y.recordId) :=
          List.mem_map.mpr ⟨it, hrest, rfl⟩
        rw [← e] at hmm
        exact hnd1.1 hmm
      have hxs : it.recordId ≠ x.recordId := by
        intro e
        exact hx e.symm
      have hlk1 : lookupItem it.recordId (processItem uploadOk now s x).1.queue = some it :=
        (processItem_queue_frame uploadOk now s x it.recordId hxs).trans hlk
      have hihres := ih (processItem uploadOk now s x).1 hnd1.2 hrest hlk1
      constructor
      · simpa [drainList] using hihres.1
      · intro hmem
        simp only [drainList, List.mem_append] at hmem
        rcases hmem with hp | hd
        · exact hx (processItem_attempts uploadOk now s x it.recordId hp).symm
        · exact hihres.2 hd

theorem drainList_failed (uploadOk : Nat → Bool) (now : Nat)
    (it : UploadQueueItem) (hdef : shouldDefer now it = false)
    (hretry : it.retryCount < maxRetries) :
    ∀ (L : List UploadQueueItem) (s : SyncStore),
      (L.map (fun x => x.recordId)).Nodup → it ∈ L →
      (lookupRec it.recordId s.records = none ∨ uploadOk it.recordId = false) →
      lookupItem it.recordId (drainList uploadOk now L s).1.queue =
        some (failedItem now it) := by
  intro L
  induction L with
  | nil => intro s _ hm; cases hm
  | cons x rest ih =>
    intro s hnd hm hfail
    have hnd1 := List.nodup_cons.mp hnd
    rcases List.mem_cons.mp hm with he | hrest
    · subst he
      have hstep := processItem_fail uploadOk now s it hdef hretry hfail
      have hk : ∀ y ∈ rest, y.recordId ≠ it.recordId := by
        intro y hy e
        exact hnd1.1 (List.mem_map.mpr ⟨y, hy, e⟩)
      have hafter : lookupItem it.recordId
          (upsertItem (failedItem now it) s.queue) = some (failedItem now it) := by
        simpa using lookupItem_upsert_self (failedItem now it) s.queue
      simpa [drainList, hstep] using
        (drainList_queue_frame uploadOk now it.recordId rest
          { s with queue := upsertItem (failedItem now it) s.queue } hk).trans hafter
    · have hx : x.recordId ≠ it.recordId := by
        intro e
        have hmm : it.recordId ∈ rest.map (fun y => y.recordId) :=
          List.mem_map.mpr ⟨it, hrest, rfl⟩
        rw [← e] at hmm
        exact hnd1.1 hmm
      have hfail1 : lookupRec it.recordId (processItem uploadOk now s x).1.records = none ∨
          uploadOk it.recordId = false := by
        rcases hfail with hnone | hok
        · exact Or.inl (processItem_records_none uploadOk now s x it.recordId hnone)
        · exact Or.inr hok
      simpa [drainList] using ih (processItem uploadOk now s x).1 hnd1.2 hrest hfail1

/-- C3: a queue item whose retryCount has reached MAX_RETRIES is skipped by
every drain pass: after processQueue it is still in the persisted queue with
exactly the same fields, and no upload was attempted for its recordId. -/
theorem drain_abandoned_untouched (uploadOk : Nat → Bool) (now : Nat)
    (m : ManagerState) (it : UploadQueueItem)
    (hnd : (m.store.queue.map (fun x => x.recordId)).Nodup)
    (hmem : it ∈ m.store.queue)
    (hmax : maxRetries ≤ it.retryCount) :
    lookupItem it.recordId (processQueue uploadOk now m).1.store.queue = some it ∧
      it.recordId ∉ (processQueue uploadOk now m).2.attempts := by
  have hlk := lookupItem_of_mem_nodup it m.store.queue hnd hmem
  by_cases hp : m.isProcessing = true
  · simp [processQueue, hp, hlk]
  · simp only [Bool.not_eq_true] at hp
    have hres := drainList_abandoned uploadOk now it hmax m.store.queue m.store hnd hmem hlk
    simpa [processQueue, hp] using hres

/-- Witness for drain_abandoned_untouched: a single abandoned item with
retryCount 5 survives a drain pass untouched and unattempted. -/
theorem drain_abandoned_untouched_witness :
    lookupItem 7
        (processQueue (fun _ => true) 0 ⟨false, ⟨[], [⟨7, 0, 5, none⟩]⟩⟩).1.store.queue =
        some ⟨7, 0, 5, none⟩ ∧
      7 ∉ (processQueue (fun _ => true) 0 ⟨false, ⟨[], [⟨7, 0, 5, none⟩]⟩⟩).2.attempts :=
  drain_abandoned_untouched (fun _ => true) 0 ⟨false, ⟨[], [⟨7, 0, 5, none⟩]⟩⟩
    ⟨7, 0, 5, none⟩ (by decide) (by decide) (by decide)

/-- C2: a failed upload attempt during a drain pass leaves the item persisted
with retryCount increased by exactly one and nextRetryAt = now +
1000 * 2 ^ oldRetryCount. -/
theorem drain_failure_backoff (uploadOk : Nat → Bool) (now : Nat)
    (m : ManagerState) (it : UploadQueueItem)
    (hnd : (m.store.queue.map (fun x => x.recordId)).Nodup)
    (hmem : it ∈ m.store.queue)
    (hflag : m.isProcessing = false)
    (hdef : shouldDefer now it = false)
    (hretry : it.retryCount < maxRetries)
    (hfail : uploadOk it.recordId = false) :
    lookupItem it.recordId (processQueue uploadOk now m).1.store.queue =
      some { it with
             retryCount := it.retryCount + 1
             nextRetryAt := some (now + 1000 * 2 ^ it.retryCount) } := by
  have hres := drainList_failed uploadOk now it hdef hretry m.store.queue m.store
    hnd hmem (Or.inr hfail)
  have h2 : (processQueue uploadOk now m).1.store.queue =
      (drainList uploadOk now m.store.queue m.store).1.queue := by
    simp [processQueue, hflag]
  rw [h2]
  exact hres

/-- Witness for drain_failure_backoff: an item with retryCount 2 fails at
now = 5 and is persisted with retryCount 3 and nextRetryAt 5 + 4000. -/
theorem drain_failure_backoff_witness :
    lookupItem 1
        (processQueue (fun _ => false) 5
          ⟨false, ⟨[⟨1, 0, true, none, none, none⟩], [⟨1, 5, 2, some 4⟩]⟩⟩).1.store.queue =
      some ⟨1, 5, 3, some 4005⟩ :=
  drain_failure_backoff (fun _ => false) 5
    ⟨false, ⟨[⟨1, 0, true, none, none, none⟩], [⟨1, 5, 2, some 4⟩]⟩⟩ ⟨1, 5, 2, some 4⟩
    (by decide) (by decide) rfl (by decide) (by decide) rfl

/-- C9 counterexample: the claim says a queue item whose record is missing
from the Metadata Store is dropped from the queue by the drain pass.  In the
code the thrown Record-not-found error is caught by the ordinary failure
handler instead: with an empty records store and one queue item for record 1,
the item is still in the queue after the pass (with backoff state), not
dropped. -/
theorem missing_record_drop_counterexample :
    ¬ (lookupItem 1
        (processQueue (fun _ => true) 0
          ⟨false, ⟨[], [⟨1, 0, 0, none⟩]⟩⟩).1.store.queue = none) := by
  decide

/-- C9 amended: a queue item whose recordId has no record in the Metadata
Store is treated as an ordinary upload failure — the error is logged and the
item stays in the queue with retryCount incremented and nextRetryAt set, to
be retried until MAX_RETRIES is reached. -/
theorem drain_missing_record_backoff (uploadOk : Nat → Bool) (now : Nat)
    (m : ManagerState) (it : UploadQueueItem)
    (hnd : (m.store.queue.map (fun x => x.recordId)).Nodup)
    (hmem : it ∈ m.store.queue)
    (hflag : m.isProcessing = false)
    (hdef : shouldDefer now it = false)
    (hretry : it.retryCount < maxRetries)
    (hnone : lookupRec it.recordId m.store.records = none) :
    lookupItem it.recordId (processQueue uploadOk now m).1.store.queue =
      some { it with
             retryCount := it.retryCount + 1
             nextRetryAt := some (now + 1000 * 2 ^ it.retryCount) } := by
  have hres := drainList_failed uploadOk now it hdef hretry m.store.queue m.store
    hnd hmem (Or.inl hnone)
  have h2 : (processQueue uploadOk now m).1.store.queue =
      (drainList uploadOk now m.store.queue m.store).1.queue := by
    simp [processQueue, hflag]
  rw [h2]
  exact hres

/-- Witness for drain_missing_record_backoff: record 2 does not exist, so the
item goes from retryCount 1 to 2 with a 2000 ms backoff. -/
theorem drain_missing_record_backoff_witness :
    lookupItem 2
        (processQueue (fun _ => true) 0
          ⟨false, ⟨[], [⟨2, 0, 1, none⟩]⟩⟩).1.store.queue =
      some ⟨2, 0, 2, some 2000⟩ :=
  drain_missing_record_backoff (fun _ => true) 0
    ⟨false, ⟨[], [⟨2, 0, 1, none⟩]⟩⟩ ⟨2, 0, 1, none⟩
    (by decide) (by decide) rfl (by decide) (by decide) rfl

/-- C10: the failure path of a drain attempt is a frame over the Metadata
Store: the records store is bit-for-bit unchanged (so synced, uploadAttempts,
lastUploadAttempt and error are only ever written on the success path), and
the only mutation is the upsert of the backed-off queue item. -/
theorem failed_attempt_record_frame (uploadOk : Nat → Bool) (now : Nat)
    (s : SyncStore) (it : UploadQueueItem)
    (hdef : shouldDefer now it = false)
    (hretry : it.retryCount < maxRetries)
    (hfail : lookupRec it.recordId s.records = none ∨ uploadOk it.recordId = false) :
    (processItem uploadOk now s it).1.records = s.records ∧
      (processItem uploadOk now s it).1.queue =
        upsertItem (failedItem now it) s.queue ∧
      (processItem uploadOk now s it).2 = [it.recordId] := by
  have h := processItem_fail uploadOk now s it hdef hretry hfail
  rw [h]
  exact ⟨rfl, rfl, rfl⟩

end UploadSync

namespace DataMgr

theorem lookupRecD_putRecD_self (r : DRecord) (rs : List DRecord) :
    lookupRecD r.id (putRecD r rs) = some r := by
  induction rs with
  | nil => simp [putRecD, lookupRecD]
  | cons x xs ih =>
    by_cases hx : x.id = r.id
    · simp [putRecD, lookupRecD, hx]
    · simp [putRecD, lookupRecD, hx, ih]

theorem lookupRecD_eraseRecD_self (rid : Nat) (rs : List DRecord) :
    lookupRecD rid (eraseRecD rid rs) = none := by
  induction rs with
  | nil => rfl
  | cons x xs ih =>
    by_cases hx : x.id = rid
    · simpa [eraseRecD, hx] using ih
    · simpa [eraseRecD, lookupRecD, hx] using ih

theorem lookupQueue_eraseQueue_self (rid : Nat) (q : List QueueItem) :
    lookupQueue rid (eraseQueue rid q) = none := by
  induction q with
  | nil => rfl
  | cons x xs ih =>
    by_cases hx : x.recordId = rid
    · simpa [eraseQueue, hx] using ih
    · simpa [eraseQueue, lookupQueue, hx] using ih

theorem lookupBlob_deleteBlob_self (k : FileKey) (bs : List (FileKey × Nat)) :
    lookupBlob k (deleteBlob k bs) = none := by
  induction bs with
  | nil => rfl
  | cons e es ih =>
    by_cases he : e.1 = k
    · simpa [deleteBlob, he] using ih
    · simpa [deleteBlob, lookupBlob, he] using ih

theorem lookupBlob_deleteBlob_none (k k2 : FileKey) (bs : List (FileKey × Nat))
    (h : lookupBlob k bs = none) :
    lookupBlob k (deleteBlob k2 bs) = none := by
  induction bs with
  | nil => rfl
  | cons e es ih =>
    by_cases he : e.1 = k
    · simp [lookupBlob, he] at h
    · simp only [lookupBlob, beq_iff_eq, he, if_false] at h
      by_cases he2 : e.1 = k2
      · simpa [deleteBlob, he2] using ih h
      · simpa [deleteBlob, lookupBlob, he, he2] using ih h

theorem deleteMediaBlobs_none (k : FileKey) :
    ∀ (L : List MediaMetadata) (bs : List (FileKey × Nat)),
      lookupBlob k bs = none →
      lookupBlob k (deleteMediaBlobs L bs) = none := by
  intro L
  induction L with
  | nil => intro bs h; exact h
  | cons m rest ih =>
    intro bs h
    have h1 : lookupBlob k (deleteBlob m.fileName bs) = none :=
      lookupBlob_deleteBlob_none k m.fileName bs h
    cases ht : m.thumbnailFileName with
    | none => simpa [deleteMediaBlobs, ht] using ih (deleteBlob m.fileName bs) h1
    | some t =>
      have h2 : lookupBlob k (deleteBlob t (deleteBlob m.fileName bs)) = none :=
        lookupBlob_deleteBlob_none k t (deleteBlob m.fileName bs) h1
      simpa [deleteMediaBlobs, ht] using ih (deleteBlob t (deleteBlob m.fileName bs)) h2

theorem deleteMediaBlobs_deletes :
    ∀ (L : List MediaMetadata) (bs : List (FileKey × Nat)), ∀ m ∈ L,
      lookupBlob m.fileName (deleteMediaBlobs L bs) = none ∧
      ∀ t, m.thumbnailFileName = some t →
        lookupBlob t (deleteMediaBlobs L bs) = none := by
  intro L
  induction L with
  | nil => intro bs m hm; cases hm
  | cons m0 rest ih =>
    intro bs m hm
    rcases List.mem_cons.mp hm with he | hrest
    · subst he
      have hfile1 : lookupBlob m.fileName (deleteBlob m.fileName bs) = none :=
        lookupBlob_deleteBlob_self m.fileName bs
      cases ht : m.thumbnailFileName with
      | none =>
        refine ⟨?_, ?_⟩
        · simpa [deleteMediaBlobs, ht] using
            deleteMediaBlobs_none m.fileName rest (deleteBlob m.fileName bs) hfile1
        · intro t htt
          cases htt
      | some t =>
        have hfile2 : lookupBlob m.fileName (deleteBlob t (deleteBlob m.fileName bs)) = none :=
          lookupBlob_deleteBlob_none m.fileName t (deleteBlob m.fileName bs) hfile1
        have hthumb : lookupBlob t (deleteBlob t (deleteBlob m.fileName bs)) = none :=
          lookupBlob_deleteBlob_self t (deleteBlob m.fileName bs)
        refine ⟨?_, ?_⟩
        · simpa [deleteMediaBlobs, ht] using
            deleteMediaBlobs_none m.fileName rest (deleteBlob t (deleteBlob m.fileName bs)) hfile2
        · intro t2 htt
          cases htt
          simpa [deleteMediaBlobs, ht] using
            deleteMediaBlobs_none t rest (deleteBlob t (deleteBlob m.fileName bs)) hthumb
    · cases ht : m0.thumbnailFileName with
      | none => simpa [deleteMediaBlobs, ht] using ih (deleteBlob m0.fileName bs) m hrest
      | some t =>
        simpa [deleteMediaBlobs, ht] using
          ih (deleteBlob t (deleteBlob m0.fileName bs)) m hrest

/-- C4: createRecord followed by removeRecord on the returned record's id
leaves the Blob Store with none of the blobs that createRecord wrote (the
record's media files and thumbnails), and the Metadata Store with no record
row and no upload-queue item for that id. -/
theorem create_remove_roundtrip (now : Nat) (form : List (String × FormValue))
    (files : List FileInput) (st : AppState) (_hne : files ≠ []) :
    (∀ m ∈ (createRecord now form files st).1.media,
        lookupBlob m.fileName (removeRecord (createRecord now form files st).1.id (createRecord now form files st).2).opfs = none ∧
        ∀ t, m.thumbnailFileName = some t →
          lookupBlob t (removeRecord (createRecord now form files st).1.id (createRecord now form files st).2).opfs = none) ∧
      lookupRecD (createRecord now form files st).1.id
        (removeRecord (createRecord now form files st).1.id (createRecord now form files st).2).records = none ∧
      lookupQueue (createRecord now form files st).1.id
        (removeRecord (createRecord now form files st).1.id (createRecord now form files st).2).queue = none := by
  have hlk : lookupRecD (createRecord now form files st).1.id
      (createRecord now form files st).2.records = some (createRecord now form files st).1 :=
    lookupRecD_putRecD_self (createRecord now form files st).1
      (createMediaLoop now files [] 0 st).2.2.records
  have hopfs : (removeRecord (createRecord now form files st).1.id
      (createRecord now form files st).2).opfs =
      deleteMediaBlobs (createRecord now form files st).1.media
        (createRecord now form files st).2.opfs := by
    simp [removeRecord, hlk]
  have hrecs : (removeRecord (createRecord now form files st).1.id
      (createRecord now form files st).2).records =
      eraseRecD (createRecord now form files st).1.id
        (createRecord now form files st).2.records := by
    simp [removeRecord, hlk]
  have hq : (removeRecord (createRecord now form files st).1.id
      (createRecord now form files st).2).queue =
      eraseQueue (createRecord now form files st).1.id
        (createRecord now form files st).2.queue := by
    simp [removeRecord, hlk]
  refine ⟨?_, ?_, ?_⟩
  · intro m hm
    rw [hopfs]
    exact deleteMediaBlobs_deletes (createRecord now form files st).1.media
      (createRecord now form files st).2.opfs m hm
  · rw [hrecs]
    exact lookupRecD_eraseRecD_self _ _
  · rw [hq]
    exact lookupQueue_eraseQueue_self _ _

/-- Witness for create_remove_roundtrip: one photo of 5 bytes with a 2-byte
thumbnail, created in an empty state and then removed. -/
theorem create_remove_roundtrip_witness :
    ([(⟨5, "image/jpeg", MType.photo, some 2, none⟩ : FileInput)] ≠ []) ∧
      ((∀ m ∈ (createRecord 100 [] [⟨5, "image/jpeg", MType.photo, some 2, none⟩] ⟨0, [], [], []⟩).1.media,
          lookupBlob m.fileName (removeRecord (createRecord 100 [] [⟨5, "image/jpeg", MType.photo, some 2, none⟩] ⟨0, [], [], []⟩).1.id (createRecord 100 [] [⟨5, "image/jpeg", MType.photo, some 2, none⟩] ⟨0, [], [], []⟩).2).opfs = none ∧
          ∀ t, m.thumbnailFileName = some t →
            lookupBlob t (removeRecord (createRecord 100 [] [⟨5, "image/jpeg", MType.photo, some 2, none⟩] ⟨0, [], [], []⟩).1.id (createRecord 100 [] [⟨5, "image/jpeg", MType.photo, some 2, none⟩] ⟨0, [], [], []⟩).2).opfs = none) ∧
        lookupRecD (createRecord 100 [] [⟨5, "image/jpeg", MType.photo, some 2, none⟩] ⟨0, [], [], []⟩).1.id
          (removeRecord (createRecord 100 [] [⟨5, "image/jpeg", MType.photo, some 2, none⟩] ⟨0, [], [], []⟩).1.id (createRecord 100 [] [⟨5, "image/jpeg", MType.photo, some 2, none⟩] ⟨0, [], [], []⟩).2).records = none ∧
        lookupQueue (createRecord 100 [] [⟨5, "image/jpeg", MType.photo, some 2, none⟩] ⟨0, [], [], []⟩).1.id
          (removeRecord (createRecord 100 [] [⟨5, "image/jpeg", MType.photo, some 2, none⟩] ⟨0, [], [], []⟩).1.id (createRecord 100 [] [⟨5, "image/jpeg", MType.photo, some 2, none⟩] ⟨0, [], [], []⟩).2).queue = none) :=
  ⟨by decide, create_remove_roundtrip 100 [] [⟨5, "image/jpeg", MType.photo, some 2, none⟩]
    ⟨0, [], [], []⟩ (by decide)⟩

end DataMgr

namespace UploadSync

/-- Witness for failed_attempt_record_frame at a concrete store with one
record and one failing item. -/
theorem failed_attempt_record_frame_witness :
    (processItem (fun _ => false) 0
        ⟨[⟨3, 0, false, none, none, none⟩], [⟨3, 0, 0, none⟩]⟩ ⟨3, 0, 0, none⟩).1.records =
        [⟨3, 0, false, none, none, none⟩] ∧
      (processItem (fun _ => false) 0
        ⟨[⟨3, 0, false, none, none, none⟩], [⟨3, 0, 0, none⟩]⟩ ⟨3, 0, 0, none⟩).1.queue =
        upsertItem (failedItem 0 ⟨3, 0, 0, none⟩) [⟨3, 0, 0, none⟩] ∧
      (processItem (fun _ => false) 0
        ⟨[⟨3, 0, false, none, none, none⟩], [⟨3, 0, 0, none⟩]⟩ ⟨3, 0, 0, none⟩).2 = [3] :=
  failed_attempt_record_frame (fun _ => false) 0
    ⟨[⟨3, 0, false, none, none, none⟩], [⟨3, 0, 0, none⟩]⟩ ⟨3, 0, 0, none⟩
    (by decide) (by decide) (Or.inr rfl)

end UploadSync
